import Mathlib

/-
Verification of the task-processor pipeline (src/src/task_processor.py):
a shallow embedding of the schema validator, input validator, enricher and
pipeline orchestrator, together with proofs of the specified properties.

JSON values decoded by Python's `json.load` are modelled by `JValue`:
`None`, `bool`, `int`, `float` (modelled as a rational number — only its
type tag and equality matter here), `str`, `list`, and `dict` (an
association list in insertion order; decoded dicts have unique keys, and
lookups take the first match, which agrees with Python on such lists).
-/

namespace TaskProcessor

/-- A decoded JSON value as it exists in Python memory after `json.load`. -/
inductive JValue : Type where
  | jnull : JValue
  | jbool : Bool → JValue
  | jint : Int → JValue
  | jfloat : Rat → JValue
  | jstr : String → JValue
  | jarr : List JValue → JValue
  | jobj : List (String × JValue) → JValue

/-- Python `type(x).__name__` for a decoded JSON value. -/
def pyTypeName : JValue → String
  | .jnull => "NoneType"
  | .jbool _ => "bool"
  | .jint _ => "int"
  | .jfloat _ => "float"
  | .jstr _ => "str"
  | .jarr _ => "list"
  | .jobj _ => "dict"

/-- Python `isinstance(x, bool)`. -/
def isInstanceBool : JValue → Bool
  | .jbool _ => true
  | _ => false

/-- Python `isinstance(x, int)`: `bool` is a subclass of `int` in Python,
so booleans also satisfy this check. -/
def isInstanceInt : JValue → Bool
  | .jint _ => true
  | .jbool _ => true
  | _ => false

/-- Python `isinstance(x, (int, float))`; booleans count as `int` here too. -/
def isInstanceNumeric : JValue → Bool
  | .jint _ => true
  | .jbool _ => true
  | .jfloat _ => true
  | _ => false

/-- Python `isinstance(x, str)`. -/
def isInstanceStr : JValue → Bool
  | .jstr _ => true
  | _ => false

/-- The underlying string of a `jstr` (only applied after the `str` type check,
mirroring `item[\x27name\x27].strip()` being reached only when the value is a string). -/
def jstrVal : JValue → String
  | .jstr s => s
  | _ => ""

/-- Python `str.strip()` with no arguments: the string with leading and
trailing whitespace removed. Implemented by structural recursion on the
character list so it computes by kernel reduction. -/
def pyStrip (s : String) : String :=
  ⟨((s.data.dropWhile Char.isWhitespace).reverse.dropWhile Char.isWhitespace).reverse⟩

/-- Python `str(x)` for a validated id, which is always an `int`. -/
def pyStr : JValue → String
  | .jint n => toString n
  | _ => ""

/-- The integer carried by a validated id (validation guarantees `jint`). -/
def jintVal : JValue → Int
  | .jint n => n
  | _ => 0

/-- Python `len(x)` for the validated `name`, which is always a `str`;
`len` on a Python `str` counts Unicode code points, as `String.length` does. -/
def pyLen : JValue → Int
  | .jstr s => (s.length : Int)
  | _ => 0

/-- Python `field in item` on a decoded JSON object. -/
def hasKey (fields : List (String × JValue)) (k : String) : Bool :=
  (fields.lookup k).isSome

/-- Python `item[k]` on a decoded JSON object (only evaluated after the
`k in item` check succeeded, so the default is never reached). -/
def getKey (fields : List (String × JValue)) (k : String) : JValue :=
  (fields.lookup k).getD .jnull

/-- Error message of `validate_item` for a non-object item. -/
def msgNotObject (index : Nat) : String :=
  "Item at index " ++ toString index ++ " is not an object"

/-- Error message of `validate_item` for a missing required field. -/
def msgMissingField (index : Nat) (field : String) : String :=
  "Item at index " ++ toString index ++ " is missing required field \x27" ++ field ++ "\x27"

/-- Error message of `validate_item` for a non-integer id. -/
def msgIdNotInt (index : Nat) (t : String) : String :=
  "Item at index " ++ toString index ++ ": \x27id\x27 must be an integer, got " ++ t

/-- Error message of `validate_item` for a non-string name. -/
def msgNameNotStr (index : Nat) (t : String) : String :=
  "Item at index " ++ toString index ++ ": \x27name\x27 must be a string, got " ++ t

/-- Error message of `validate_item` for an empty (after stripping) name. -/
def msgNameEmpty (index : Nat) : String :=
  "Item at index " ++ toString index ++ ": \x27name\x27 must be a non-empty string"

/-- Error message of `validate_item` for a non-numeric value. -/
def msgValueNotNumeric (index : Nat) (t : String) : String :=
  "Item at index " ++ toString index ++ ": \x27value\x27 must be numeric, got " ++ t

/-- Embedding of `validate_item` (task_processor.py, lines 41–91).
Checks: object shape; required fields in order id, name, value; id a true
integer (booleans rejected first, then the `int` instance check); name a
string; name non-empty after stripping; value an instance of `(int, float)`;
value not a boolean. Returns the validated record — a fresh dict holding
exactly the keys id, name, value with the original values. -/
def validate_item (item : JValue) (index : Nat) : Except String (List (String × JValue)) :=
  match item with
  | .jobj fields =>
    if !hasKey fields "id" then .error (msgMissingField index "id")
    else if !hasKey fields "name" then .error (msgMissingField index "name")
    else if !hasKey fields "value" then .error (msgMissingField index "value")
    else if isInstanceBool (getKey fields "id") || !isInstanceInt (getKey fields "id") then
      .error (msgIdNotInt index (pyTypeName (getKey fields "id")))
    else if !isInstanceStr (getKey fields "name") then
      .error (msgNameNotStr index (pyTypeName (getKey fields "name")))
    else if pyStrip (jstrVal (getKey fields "name")) = "" then
      .error (msgNameEmpty index)
    else if !isInstanceNumeric (getKey fields "value") then
      .error (msgValueNotNumeric index (pyTypeName (getKey fields "value")))
    else if isInstanceBool (getKey fields "value") then
      .error (msgValueNotNumeric index "bool")
    else
      .ok [("id", getKey fields "id"), ("name", getKey fields "name"),
           ("value", getKey fields "value")]
  | _ => .error (msgNotObject index)

/-- The loop body of `validate_input` (task_processor.py, lines 110–123):
validates each item at its position, tracks the set of seen ids, and
fails fast on the first duplicate. -/
def validate_items :
    List JValue → Nat → List Int → Except String (List (List (String × JValue)))
  | [], _, _ => .ok []
  | item :: rest, index, seen =>
    match validate_item item index with
    | .error e => .error e
    | .ok v =>
      if jintVal (getKey v "id") ∈ seen then
        .error ("Duplicate id found: " ++ pyStr (getKey v "id"))
      else
        match validate_items rest (index + 1) (jintVal (getKey v "id") :: seen) with
        | .error e => .error e
        | .ok vs => .ok (v :: vs)

/-- Embedding of `validate_input` (task_processor.py, lines 94–123). -/
def validate_input (data : JValue) : Except String (List (List (String × JValue))) :=
  match data with
  | .jarr items => validate_items items 0 []
  | _ => .error "Input must be a JSON array"

/-- Embedding of `process_items` (task_processor.py, lines 126–148): the
enricher. Builds, per record, a dict with keys in order id, name, value,
processed, name_length. The `logger.info` call has no effect on the result. -/
def process_items (items : List (List (String × JValue))) : List (List (String × JValue)) :=
  items.map (fun item =>
    [("id", getKey item "id"),
     ("name", getKey item "name"),
     ("value", getKey item "value"),
     ("processed", .jbool true),
     ("name_length", .jint (pyLen (getKey item "name")))])

/-- Embedding of `process_command` (task_processor.py, lines 200–231).
The two I/O collaborators (`read_input_file`, `write_output_file`) are
parameters: each either returns a result or fails. Any failure of any
step — a `ValidationError` raised by a collaborator or the validator, or
any other exception, both modelled by the `Except` error channel — is
caught by the orchestrator and turned into exit status 1; otherwise the
pipeline runs read → validate → process → write and returns 0. -/
def process_command (readInput : Except String JValue)
    (writeOutput : List (List (String × JValue)) → Except String Unit) : Int :=
  match readInput with
  | .error _ => 1
  | .ok data =>
    match validate_input data with
    | .error _ => 1
    | .ok validated =>
      match writeOutput (process_items validated) with
      | .error _ => 1
      | .ok _ => 0

/-! Spec-side description of the Schema Validator (spec section 4.1): the six
rules in their fixed order, the first violation winning. These definitions
follow the spec text and serve as the comparison point for the refinement
claim about `validate_item`. -/

/-- Identifies which of the six schema rules is violated, with the data the
message needs (the missing field, or the Python type name reported). -/
inductive RuleViolation : Type where
  | notObject : RuleViolation
  | missingField : String → RuleViolation
  | idNotInteger : String → RuleViolation
  | nameNotString : String → RuleViolation
  | nameEmpty : RuleViolation
  | valueNotNumeric : String → RuleViolation

/-- Spec rule 3: the id must be a true integer, with booleans explicitly
rejected — so exactly the `jint` values qualify. -/
def specIsTrueInt : JValue → Bool
  | .jint _ => true
  | _ => false

/-- Spec rule 6: the value must be numeric (integer or floating point) and
explicitly not boolean — so exactly `jint` and `jfloat` values qualify. -/
def specIsNumericNonBool : JValue → Bool
  | .jint _ => true
  | .jfloat _ => true
  | _ => false

/-- Spec-side cascade: the first violated rule in the fixed order
(object shape; missing id, name, value; id a true integer; name a string;
name non-empty after trimming; value numeric and not boolean), or `none`
when every rule holds. -/
def specFirstViolation (item : JValue) : Option RuleViolation :=
  match item with
  | .jobj fields =>
    if !hasKey fields "id" then some (.missingField "id")
    else if !hasKey fields "name" then some (.missingField "name")
    else if !hasKey fields "value" then some (.missingField "value")
    else if !specIsTrueInt (getKey fields "id") then
      some (.idNotInteger (pyTypeName (getKey fields "id")))
    else if !isInstanceStr (getKey fields "name") then
      some (.nameNotString (pyTypeName (getKey fields "name")))
    else if pyStrip (jstrVal (getKey fields "name")) = "" then
      some .nameEmpty
    else if !specIsNumericNonBool (getKey fields "value") then
      some (.valueNotNumeric (pyTypeName (getKey fields "value")))
    else none
  | _ => some .notObject

/-- The message the spec attaches to each rule violation at a position. -/
def renderViolation (index : Nat) : RuleViolation → String
  | .notObject => msgNotObject index
  | .missingField f => msgMissingField index f
  | .idNotInteger t => msgIdNotInt index t
  | .nameNotString t => msgNameNotStr index t
  | .nameEmpty => msgNameEmpty index
  | .valueNotNumeric t => msgValueNotNumeric index t

/-- The normalized record the spec prescribes on success: exactly the three
validated fields with their original values. -/
def specRecord (item : JValue) : List (String × JValue) :=
  match item with
  | .jobj fields =>
    [("id", getKey fields "id"), ("name", getKey fields "name"),
     ("value", getKey fields "value")]
  | _ => []

/-- Spec-side validator: fail with the message of the first violated rule,
succeed with the normalized record when no rule is violated. -/
def specValidate (item : JValue) (index : Nat) : Except String (List (String × JValue)) :=
  match specFirstViolation item with
  | some v => .error (renderViolation index v)
  | none => .ok (specRecord item)

/-- Helper: the code's validator coincides with the spec-side first-violation
cascade on every input and position. -/
lemma validate_item_eq_spec (item : JValue) (index : Nat) :
    validate_item item index = specValidate item index := by
  cases item with
  | jnull => rfl
  | jbool b => rfl
  | jint n => rfl
  | jfloat q => rfl
  | jstr s => rfl
  | jarr xs => rfl
  | jobj fields =>
    simp only [validate_item, specValidate, specFirstViolation, specRecord]
    by_cases h1 : hasKey fields "id"
    · by_cases h2 : hasKey fields "name"
      · by_cases h3 : hasKey fields "value"
        · simp only [h1, h2, h3, Bool.not_true, Bool.false_eq_true, if_false]
          generalize getKey fields "id" = a
          generalize getKey fields "name" = b
          generalize getKey fields "value" = c
          cases a <;>
            simp only [isInstanceBool, isInstanceInt, specIsTrueInt, pyTypeName,
              Bool.not_true, Bool.not_false, Bool.true_or, Bool.or_false,
              Bool.false_or, Bool.false_eq_true, if_true, if_false, renderViolation]
          cases b <;>
            simp only [isInstanceStr, pyTypeName, jstrVal,
              Bool.not_true, Bool.not_false, Bool.false_eq_true, if_true, if_false,
              renderViolation]
          rename_i s
          by_cases hs : pyStrip s = ""
          · simp [hs, renderViolation]
          · simp only [if_neg hs]
            cases c <;>
              simp only [isInstanceNumeric, isInstanceBool, specIsNumericNonBool,
                pyTypeName, Bool.not_true, Bool.not_false, Bool.false_eq_true,
                if_true, if_false, renderViolation]
        · simp [h1, h2, h3, renderViolation]
      · simp [h1, h2, renderViolation]
    · simp [h1, renderViolation]

/-- C1: for every raw value and position, `validate_item` checks the six
schema rules in the fixed order (object shape; missing fields in order id,
name, value; id a true integer; name a string; name non-empty after
trimming; value numeric and not boolean) and fails with the message of the
first violated rule only: it equals the spec-side cascade `specValidate`,
which reports the earliest violated rule. -/
theorem validate_item_first_violation_wins (item : JValue) (index : Nat) :
    validate_item item index = specValidate item index :=
  validate_item_eq_spec item index

/-- Helper: a present key's lookup returns exactly the `getKey` value. -/
lemma lookup_eq_getKey {fields : List (String × JValue)} {k : String}
    (h : hasKey fields k = true) : fields.lookup k = some (getKey fields k) := by
  unfold hasKey at h
  cases hl : fields.lookup k with
  | none => rw [hl] at h; simp at h
  | some v => simp [getKey, hl]

/-- Helper: inversion of a successful `validate_item` run — the record is the
three-field normalization and no schema rule is violated. -/
lemma validate_item_ok_inv {fields : List (String × JValue)} {index : Nat}
    {rec : List (String × JValue)}
    (h : validate_item (.jobj fields) index = .ok rec) :
    rec = [("id", getKey fields "id"), ("name", getKey fields "name"),
           ("value", getKey fields "value")] ∧
    specFirstViolation (.jobj fields) = none := by
  rw [validate_item_eq_spec] at h
  unfold specValidate at h
  cases hv : specFirstViolation (.jobj fields) with
  | some w => rw [hv] at h; simp at h
  | none =>
    rw [hv] at h
    simp only [specRecord] at h
    exact ⟨(Except.ok.inj h).symm, rfl⟩

/-- Helper: what it means for no schema rule to be violated. -/
lemma specFirstViolation_none_iff (fields : List (String × JValue)) :
    specFirstViolation (.jobj fields) = none ↔
      hasKey fields "id" = true ∧ hasKey fields "name" = true ∧
      hasKey fields "value" = true ∧
      specIsTrueInt (getKey fields "id") = true ∧
      isInstanceStr (getKey fields "name") = true ∧
      pyStrip (jstrVal (getKey fields "name")) ≠ "" ∧
      specIsNumericNonBool (getKey fields "value") = true := by
  simp only [specFirstViolation]
  split_ifs with h1 h2 h3 h4 h5 h6 h7 <;> simp_all

/-- Helper: `validate_item` accepts any object whose three required fields
satisfy the rules, whatever other keys the object carries, and returns the
three-key record with the original values. -/
lemma validate_item_accepts {fields : List (String × JValue)} {index : Nat}
    {n : Int} {s : String} {v : JValue}
    (hid : fields.lookup "id" = some (.jint n))
    (hname : fields.lookup "name" = some (.jstr s))
    (hs : pyStrip s ≠ "")
    (hval : fields.lookup "value" = some v)
    (hv : (∃ m, v = JValue.jint m) ∨ (∃ q, v = JValue.jfloat q)) :
    validate_item (.jobj fields) index =
      .ok [("id", .jint n), ("name", .jstr s), ("value", v)] := by
  have hki : hasKey fields "id" = true := by simp [hasKey, hid]
  have hkn : hasKey fields "name" = true := by simp [hasKey, hname]
  have hkv : hasKey fields "value" = true := by simp [hasKey, hval]
  have hgi : getKey fields "id" = .jint n := by simp [getKey, hid]
  have hgn : getKey fields "name" = .jstr s := by simp [getKey, hname]
  have hgv : getKey fields "value" = v := by simp [getKey, hval]
  rcases hv with ⟨m, rfl⟩ | ⟨q, rfl⟩ <;>
    simp [validate_item, hki, hkn, hkv, hgi, hgn, hgv, isInstanceBool, isInstanceInt,
      isInstanceStr, isInstanceNumeric, jstrVal, hs]

/-- C2: a boolean in the `id` field always makes validation fail, and a
boolean in the `value` field of a record whose earlier fields pass makes
validation fail with the numeric-rule message reporting the type "bool". -/
theorem boolean_id_or_value_rejected (fields : List (String × JValue)) (index : Nat) (b : Bool) :
    (fields.lookup "id" = some (.jbool b) →
      ∃ e, validate_item (.jobj fields) index = .error e) ∧
    (∀ n s, fields.lookup "id" = some (.jint n) →
      fields.lookup "name" = some (.jstr s) → pyStrip s ≠ "" →
      fields.lookup "value" = some (.jbool b) →
      validate_item (.jobj fields) index = .error (msgValueNotNumeric index "bool")) := by
  constructor
  · intro hid
    have hki : hasKey fields "id" = true := by simp [hasKey, hid]
    have hgi : getKey fields "id" = .jbool b := by simp [getKey, hid]
    by_cases h2 : hasKey fields "name" <;> by_cases h3 : hasKey fields "value" <;>
      simp [validate_item, hki, hgi, h2, h3, isInstanceBool]
  · intro n s hid hname hs hval
    have hki : hasKey fields "id" = true := by simp [hasKey, hid]
    have hkn : hasKey fields "name" = true := by simp [hasKey, hname]
    have hkv : hasKey fields "value" = true := by simp [hasKey, hval]
    have hgi : getKey fields "id" = .jint n := by simp [getKey, hid]
    have hgn : getKey fields "name" = .jstr s := by simp [getKey, hname]
    have hgv : getKey fields "value" = .jbool b := by simp [getKey, hval]
    simp [validate_item, hki, hkn, hkv, hgi, hgn, hgv, isInstanceBool, isInstanceInt,
      isInstanceStr, isInstanceNumeric, jstrVal, hs]

/-- Witness for C2 at concrete records with a boolean id and a boolean value. -/
theorem boolean_id_or_value_rejected_witness :
    (∃ e, validate_item
        (.jobj [("id", .jbool true), ("name", .jstr "A"), ("value", .jint 1)]) 0 = .error e) ∧
    validate_item (.jobj [("id", .jint 1), ("name", .jstr "A"), ("value", .jbool false)]) 0 =
      .error (msgValueNotNumeric 0 "bool") :=
  ⟨(boolean_id_or_value_rejected _ 0 true).1 rfl,
   (boolean_id_or_value_rejected _ 0 false).2 1 "A" rfl rfl (by decide) rfl⟩

/-- C7 counterexample: the record `{"id": 5.0, "name": "A", "value": 1}` has
an `id` that is a JSON number with no fractional part but decodes as a
floating-point value; contrary to the claim, validation rejects it. -/
theorem float_id_rejected_cex :
    validate_item (.jobj [("id", .jfloat 5), ("name", .jstr "A"), ("value", .jint 1)]) 0 =
      .error (msgIdNotInt 0 "float") := rfl

/-- C7 (amended): an `id` that decodes as a floating-point value is rejected
with the integer-rule message even when it has no fractional part; an element
is accepted exactly when its `id` decodes as a true integer, its `name` is a
string non-empty after trimming, and its `value` is a non-boolean number —
the second conjunct gives the if direction (with the exact accepted record),
the third the only-if direction. -/
theorem id_true_integer_only (fields : List (String × JValue)) (index : Nat) :
    (∀ q, fields.lookup "id" = some (.jfloat q) →
      hasKey fields "name" = true → hasKey fields "value" = true →
      validate_item (.jobj fields) index = .error (msgIdNotInt index "float")) ∧
    (∀ n s v, fields.lookup "id" = some (.jint n) →
      fields.lookup "name" = some (.jstr s) → pyStrip s ≠ "" →
      fields.lookup "value" = some v →
      ((∃ m, v = JValue.jint m) ∨ (∃ q, v = JValue.jfloat q)) →
      validate_item (.jobj fields) index =
        .ok [("id", .jint n), ("name", .jstr s), ("value", v)]) ∧
    (∀ rec, validate_item (.jobj fields) index = .ok rec →
      (∃ n, fields.lookup "id" = some (.jint n)) ∧
      (∃ s, fields.lookup "name" = some (.jstr s) ∧ pyStrip s ≠ "") ∧
      (∃ v, fields.lookup "value" = some v ∧
        ((∃ m, v = JValue.jint m) ∨ (∃ q, v = JValue.jfloat q)))) := by
  refine ⟨?_, ?_, ?_⟩
  · intro q hid h2 h3
    have hki : hasKey fields "id" = true := by simp [hasKey, hid]
    have hgi : getKey fields "id" = .jfloat q := by simp [getKey, hid]
    simp [validate_item, hki, h2, h3, hgi, isInstanceBool, isInstanceInt, pyTypeName]
  · intro n s v hid hname hs hval hv
    exact validate_item_accepts hid hname hs hval hv
  · intro rec hok
    obtain ⟨-, hnone⟩ := validate_item_ok_inv hok
    obtain ⟨hk1, hk2, hk3, hti, his, hne, hnum⟩ :=
      (specFirstViolation_none_iff fields).mp hnone
    refine ⟨?_, ?_, ?_⟩
    · cases hgi : getKey fields "id" <;> rw [hgi] at hti <;> simp [specIsTrueInt] at hti
      rename_i n
      exact ⟨n, by rw [lookup_eq_getKey hk1, hgi]⟩
    · cases hgn : getKey fields "name" <;> rw [hgn] at his <;> simp [isInstanceStr] at his
      rename_i s
      refine ⟨s, by rw [lookup_eq_getKey hk2, hgn], ?_⟩
      rw [hgn] at hne
      simpa [jstrVal] using hne
    · cases hgv : getKey fields "value" <;> rw [hgv] at hnum <;>
        simp [specIsNumericNonBool] at hnum
      · rename_i m
        exact ⟨.jint m, by rw [lookup_eq_getKey hk3, hgv], Or.inl ⟨m, rfl⟩⟩
      · rename_i q
        exact ⟨.jfloat q, by rw [lookup_eq_getKey hk3, hgv], Or.inr ⟨q, rfl⟩⟩

/-- Witness for the amended C7: `id = 5.0` is rejected with the float message,
`id = 5` (a true integer) is accepted, and from that acceptance the converse
direction recovers the three conditions on the concrete record. -/
theorem id_true_integer_only_witness :
    validate_item (.jobj [("id", .jfloat 5), ("name", .jstr "B"), ("value", .jint 2)]) 1 =
      .error (msgIdNotInt 1 "float") ∧
    validate_item (.jobj [("id", .jint 5), ("name", .jstr "B"), ("value", .jint 2)]) 1 =
      .ok [("id", .jint 5), ("name", .jstr "B"), ("value", .jint 2)] ∧
    ((∃ n, ([("id", JValue.jint 5), ("name", JValue.jstr "B"), ("value", JValue.jint 2)] :
        List (String × JValue)).lookup "id" = some (.jint n)) ∧
     (∃ s, ([("id", JValue.jint 5), ("name", JValue.jstr "B"), ("value", JValue.jint 2)] :
        List (String × JValue)).lookup "name" = some (.jstr s) ∧ pyStrip s ≠ "") ∧
     (∃ v, ([("id", JValue.jint 5), ("name", JValue.jstr "B"), ("value", JValue.jint 2)] :
        List (String × JValue)).lookup "value" = some v ∧
        ((∃ m, v = JValue.jint m) ∨ (∃ q, v = JValue.jfloat q)))) :=
  ⟨(id_true_integer_only _ 1).1 5 rfl rfl rfl,
   (id_true_integer_only _ 1).2.1 5 "B" (.jint 2) rfl rfl (by decide) rfl (Or.inl ⟨2, rfl⟩),
   (id_true_integer_only _ 1).2.2
     [("id", JValue.jint 5), ("name", JValue.jstr "B"), ("value", JValue.jint 2)] rfl⟩

/-- C10: a mapping with valid `id`, `name`, `value` fields and any other keys
validates successfully, and the resulting record carries exactly the three
keys id, name, value — extra keys never reach the output. -/
theorem extra_keys_ignored (fields : List (String × JValue)) (index : Nat)
    (n : Int) (s : String) (v : JValue)
    (hid : fields.lookup "id" = some (.jint n))
    (hname : fields.lookup "name" = some (.jstr s))
    (hs : pyStrip s ≠ "")
    (hval : fields.lookup "value" = some v)
    (hv : (∃ m, v = JValue.jint m) ∨ (∃ q, v = JValue.jfloat q)) :
    validate_item (.jobj fields) index =
      .ok [("id", .jint n), ("name", .jstr s), ("value", v)] ∧
    ([("id", JValue.jint n), ("name", .jstr s), ("value", v)]).map Prod.fst =
      ["id", "name", "value"] :=
  ⟨validate_item_accepts hid hname hs hval hv, rfl⟩

/-- Witness for C10 at a record carrying two extra keys around the required ones. -/
theorem extra_keys_ignored_witness :
    validate_item (.jobj [("extra", .jnull), ("id", .jint 7), ("name", .jstr "N"),
        ("value", .jfloat 3), ("more", .jarr [])]) 2 =
      .ok [("id", .jint 7), ("name", .jstr "N"), ("value", .jfloat 3)] ∧
    ([("id", JValue.jint 7), ("name", .jstr "N"), ("value", .jfloat 3)]).map Prod.fst =
      ["id", "name", "value"] :=
  extra_keys_ignored _ 2 7 "N" (.jfloat 3) rfl rfl (by decide) rfl (Or.inr ⟨3, rfl⟩)

/-- C4: the enricher is total and order/length preserving — on any list of
validated records (the empty list included) it returns one output record per
input record, at the same position, consisting of the input record's id,
name and value plus `processed = true` and `name_length` equal to the
character count of the record's name. -/
theorem process_items_pointwise (items : List (List (String × JValue))) :
    (process_items items).length = items.length ∧
    ∀ i, i < items.length →
      ∃ item, items.get? i = some item ∧
        (process_items items).get? i = some
          [("id", getKey item "id"), ("name", getKey item "name"),
           ("value", getKey item "value"), ("processed", .jbool true),
           ("name_length", .jint (pyLen (getKey item "name")))] := by
  constructor
  · simp [process_items]
  · intro i hi
    cases hit : items.get? i with
    | none =>
      rw [List.get?_eq_none] at hit
      omega
    | some item =>
      refine ⟨item, rfl, ?_⟩
      simp only [process_items, List.get?_map, hit, Option.map_some']

/-- Witness for C4 at a singleton record list and position 0. -/
theorem process_items_pointwise_witness :
    ∃ item,
      [[("id", JValue.jint 1), ("name", JValue.jstr "Ab"), ("value", JValue.jint 2)]].get? 0 =
        some item ∧
      (process_items
          [[("id", JValue.jint 1), ("name", JValue.jstr "Ab"), ("value", JValue.jint 2)]]).get? 0 =
        some
          [("id", getKey item "id"), ("name", getKey item "name"),
           ("value", getKey item "value"), ("processed", .jbool true),
           ("name_length", .jint (pyLen (getKey item "name")))] :=
  (process_items_pointwise
    [[("id", JValue.jint 1), ("name", JValue.jstr "Ab"), ("value", JValue.jint 2)]]).2 0
    (by decide)

/-- C6: validation stores the original field values unchanged — the stored
name is the untrimmed original, id and value are the originals — and the
enriched record's `name_length` is the character count of that original
name, leading and trailing whitespace included. -/
theorem original_values_preserved (fields : List (String × JValue)) (index : Nat)
    (rec : List (String × JValue))
    (h : validate_item (.jobj fields) index = .ok rec) :
    rec.lookup "id" = fields.lookup "id" ∧
    rec.lookup "name" = fields.lookup "name" ∧
    rec.lookup "value" = fields.lookup "value" ∧
    ∀ s, fields.lookup "name" = some (.jstr s) →
      ((process_items [rec]).headD []).lookup "name_length" =
        some (.jint (s.length : Int)) := by
  obtain ⟨hrec, hnone⟩ := validate_item_ok_inv h
  obtain ⟨hk1, hk2, hk3, -⟩ := (specFirstViolation_none_iff fields).mp hnone
  subst hrec
  refine ⟨?_, ?_, ?_, ?_⟩
  · rw [lookup_eq_getKey hk1]; rfl
  · rw [lookup_eq_getKey hk2]; rfl
  · rw [lookup_eq_getKey hk3]; rfl
  · intro s hs
    have hgn : getKey fields "name" = .jstr s := by simp [getKey, hs]
    rw [hgn]
    rfl

/-- Witness for C6 at a record whose name carries leading and trailing
whitespace: the stored name is untrimmed and name_length counts 5 characters. -/
theorem original_values_preserved_witness :
    ([("id", JValue.jint 3), ("name", JValue.jstr " Bob "), ("value", JValue.jfloat 2)] :
        List (String × JValue)).lookup "name" = some (JValue.jstr " Bob ") ∧
    ((process_items
        [[("id", JValue.jint 3), ("name", JValue.jstr " Bob "),
          ("value", JValue.jfloat 2)]]).headD []).lookup "name_length" =
      some (.jint 5) := by
  have h := original_values_preserved
    [("id", JValue.jint 3), ("name", JValue.jstr " Bob "), ("value", JValue.jfloat 2)] 0
    [("id", JValue.jint 3), ("name", JValue.jstr " Bob "), ("value", JValue.jfloat 2)] rfl
  exact ⟨h.2.1.trans rfl, h.2.2.2 " Bob " rfl⟩

/-- C8: the enricher is deterministic — two applications to the same
validated record list, with no re-validation in between, produce identical
results (the embedding of `process_items` is a pure function of its input,
with no state carried from one application to the next). -/
theorem process_items_deterministic (items : List (List (String × JValue)))
    (first second : List (List (String × JValue)))
    (h1 : first = process_items items) (h2 : second = process_items items) :
    first = second :=
  h1.trans h2.symm

/-- Witness for C8: two runs of the enricher on the same concrete record
list coincide. -/
theorem process_items_deterministic_witness :
    process_items [[("id", JValue.jint 1), ("name", JValue.jstr "A"), ("value", JValue.jint 9)]] =
      process_items
        [[("id", JValue.jint 1), ("name", JValue.jstr "A"), ("value", JValue.jint 9)]] :=
  process_items_deterministic
    [[("id", JValue.jint 1), ("name", JValue.jstr "A"), ("value", JValue.jint 9)]] _ _ rfl rfl

/-- C5: for every behavior of the reader and writer collaborators, the
orchestrator returns only the statuses 0 and 1, and returns 0 exactly when
reading, validating and writing all complete; every failure — of any step,
anticipated or not, all carried by the error channel — yields 1 rather than
an escaped error. -/
theorem process_command_status (readInput : Except String JValue)
    (writeOutput : List (List (String × JValue)) → Except String Unit) :
    (process_command readInput writeOutput = 0 ∨
     process_command readInput writeOutput = 1) ∧
    (process_command readInput writeOutput = 0 ↔
      ∃ data recs, readInput = .ok data ∧ validate_input data = .ok recs ∧
        writeOutput (process_items recs) = .ok ()) := by
  cases readInput with
  | error e => simp [process_command]
  | ok data =>
    cases hv : validate_input data with
    | error e => simp [process_command, hv]
    | ok recs =>
      cases hw : writeOutput (process_items recs) with
      | error e => simp [process_command, hv, hw]
      | ok u => cases u; simp [process_command, hv, hw]

/-- The id of a validated record, as the integer tracked by the seen set. -/
def recId (v : List (String × JValue)) : Int :=
  jintVal (getKey v "id")

/-- Helper: a successful run of the validation loop yields ids disjoint from
the incoming seen set and pairwise distinct, one output record per input
item, each produced by `validate_item` at its original position. -/
lemma validate_items_ok_spec (items : List JValue) :
    ∀ (index : Nat) (seen : List Int) (recs : List (List (String × JValue))),
      validate_items items index seen = .ok recs →
      (∀ x ∈ recs.map recId, x ∉ seen) ∧
      (recs.map recId).Nodup ∧
      recs.length = items.length ∧
      (∀ i, i < items.length →
        ∃ it rec, items.get? i = some it ∧ recs.get? i = some rec ∧
          validate_item it (index + i) = .ok rec) := by
  induction items with
  | nil =>
    intro index seen recs h
    simp only [validate_items] at h
    obtain rfl : ([] : List (List (String × JValue))) = recs := Except.ok.inj h
    simp
  | cons item rest ih =>
    intro index seen recs h
    simp only [validate_items] at h
    cases hv : validate_item item index with
    | error e => rw [hv] at h; simp at h
    | ok v =>
      rw [hv] at h
      simp only at h
      by_cases hmem : jintVal (getKey v "id") ∈ seen
      · rw [if_pos hmem] at h; simp at h
      · rw [if_neg hmem] at h
        cases hrest : validate_items rest (index + 1) (jintVal (getKey v "id") :: seen) with
        | error e => rw [hrest] at h; simp at h
        | ok vs =>
          rw [hrest] at h
          simp only at h
          obtain rfl : v :: vs = recs := Except.ok.inj h
          obtain ⟨hdisj, hnodup, hlen, hget⟩ := ih (index + 1) _ vs hrest
          refine ⟨?_, ?_, ?_, ?_⟩
          · intro x hx
            simp only [List.map_cons, List.mem_cons] at hx
            rcases hx with rfl | hx
            · exact hmem
            · intro hxs
              exact (hdisj x hx) (List.mem_cons_of_mem _ hxs)
          · simp only [List.map_cons, List.nodup_cons]
            exact ⟨fun hc => (hdisj _ hc) (List.mem_cons_self _ _), hnodup⟩
          · simp [hlen]
          · intro i hi
            cases i with
            | zero => exact ⟨item, v, rfl, rfl, by simpa using hv⟩
            | succ j =>
              obtain ⟨it, rec, hg1, hg2, hg3⟩ := hget j (by simpa using hi)
              refine ⟨it, rec, hg1, hg2, ?_⟩
              have harith : index + 1 + j = index + (j + 1) := by omega
              rw [harith] at hg3
              exact hg3

/-- C9: whenever `validate_input` succeeds, the returned records carry
pairwise distinct ids, and they appear in input order — the i-th output
record is the validation of the i-th input element at position i. -/
theorem validate_input_distinct_ids_in_order (data : JValue)
    (recs : List (List (String × JValue)))
    (h : validate_input data = .ok recs) :
    (recs.map recId).Nodup ∧
    ∃ items, data = .jarr items ∧ recs.length = items.length ∧
      ∀ i, i < items.length →
        ∃ it rec, items.get? i = some it ∧ recs.get? i = some rec ∧
          validate_item it i = .ok rec := by
  cases data with
  | jarr items =>
    simp only [validate_input] at h
    obtain ⟨-, hnodup, hlen, hget⟩ := validate_items_ok_spec items 0 [] recs h
    refine ⟨hnodup, items, rfl, hlen, fun i hi => ?_⟩
    simpa using hget i hi
  | jnull => simp [validate_input] at h
  | jbool b => simp [validate_input] at h
  | jint n => simp [validate_input] at h
  | jfloat q => simp [validate_input] at h
  | jstr s => simp [validate_input] at h
  | jobj fields => simp [validate_input] at h

/-- Witness for C9 on a concrete two-element input with distinct ids. -/
theorem validate_input_distinct_ids_in_order_witness :
    (([[("id", JValue.jint 1), ("name", JValue.jstr "A"), ("value", JValue.jint 10)],
       [("id", JValue.jint 2), ("name", JValue.jstr "B"), ("value", JValue.jint 20)]] :
        List (List (String × JValue))).map recId).Nodup ∧
    ∃ items,
      JValue.jarr
          [.jobj [("id", .jint 1), ("name", .jstr "A"), ("value", .jint 10)],
           .jobj [("id", .jint 2), ("name", .jstr "B"), ("value", .jint 20)]] =
        .jarr items ∧
      ([[("id", JValue.jint 1), ("name", JValue.jstr "A"), ("value", JValue.jint 10)],
        [("id", JValue.jint 2), ("name", JValue.jstr "B"), ("value", JValue.jint 20)]] :
          List (List (String × JValue))).length = items.length ∧
      ∀ i, i < items.length →
        ∃ it rec, items.get? i = some it ∧
          ([[("id", JValue.jint 1), ("name", JValue.jstr "A"), ("value", JValue.jint 10)],
            [("id", JValue.jint 2), ("name", JValue.jstr "B"), ("value", JValue.jint 20)]] :
              List (List (String × JValue))).get? i = some rec ∧
          validate_item it i = .ok rec :=
  validate_input_distinct_ids_in_order
    (.jarr [.jobj [("id", .jint 1), ("name", .jstr "A"), ("value", .jint 10)],
            .jobj [("id", .jint 2), ("name", .jstr "B"), ("value", .jint 20)]])
    [[("id", JValue.jint 1), ("name", JValue.jstr "A"), ("value", JValue.jint 10)],
     [("id", JValue.jint 2), ("name", JValue.jstr "B"), ("value", JValue.jint 20)]]
    rfl

/-- Helper: after a fully successful prefix, the validation loop continues on
the remainder with the position advanced past the prefix and the prefix's
ids added to the seen set, prepending the prefix's records on success. -/
lemma validate_items_append (l : List JValue) (pre : List JValue) :
    ∀ (index : Nat) (seen : List Int) (recs : List (List (String × JValue))),
      validate_items pre index seen = .ok recs →
      validate_items (pre ++ l) index seen =
        (validate_items l (index + pre.length)
            ((recs.map recId).reverse ++ seen)).map (fun vs => recs ++ vs) := by
  induction pre with
  | nil =>
    intro index seen recs h
    simp only [validate_items] at h
    obtain rfl : ([] : List (List (String × JValue))) = recs := Except.ok.inj h
    simp only [List.nil_append, List.map_nil, List.reverse_nil, List.length_nil, Nat.add_zero]
    cases hx : validate_items l index seen <;> simp [Except.map]
  | cons item rest ih =>
    intro index seen recs h
    simp only [validate_items] at h
    cases hv : validate_item item index with
    | error e => rw [hv] at h; simp at h
    | ok v =>
      rw [hv] at h
      simp only at h
      by_cases hmem : jintVal (getKey v "id") ∈ seen
      · rw [if_pos hmem] at h; simp at h
      · rw [if_neg hmem] at h
        cases hrest : validate_items rest (index + 1) (jintVal (getKey v "id") :: seen) with
        | error e => rw [hrest] at h; simp at h
        | ok vs =>
          rw [hrest] at h
          simp only at h
          obtain rfl : v :: vs = recs := Except.ok.inj h
          have hstep := ih (index + 1) (jintVal (getKey v "id") :: seen) vs hrest
          have harith : index + 1 + rest.length = index + (rest.length + 1) := by omega
          have hseen : (vs.map recId).reverse ++ jintVal (getKey v "id") :: seen =
              ((v :: vs).map recId).reverse ++ seen := by
            simp [recId, List.reverse_cons, List.append_assoc]
          rw [harith, hseen] at hstep
          simp only [List.cons_append, validate_items, hv]
          rw [if_neg hmem]
          simp only [List.append_eq] at hstep ⊢
          rw [hstep, List.length_cons]
          cases validate_items l (index + (rest.length + 1))
              (((v :: vs).map recId).reverse ++ seen) with
          | error e => simp [Except.map]
          | ok ws => simp [Except.map]

/-- C3: when a prefix of the input validates with no duplicate, and the next
element individually passes the schema validator but carries an id already
seen in the prefix, the whole validation fails with the duplicate-id message
for that id — whatever follows the duplicate never runs, so no later
duplicate is reported. -/
theorem duplicate_id_first_reported (pre : List JValue) (dup : JValue) (rest : List JValue)
    (recs : List (List (String × JValue))) (v : List (String × JValue))
    (hpre : validate_items pre 0 [] = .ok recs)
    (hdup : validate_item dup pre.length = .ok v)
    (hmem : recId v ∈ recs.map recId) :
    validate_input (.jarr (pre ++ dup :: rest)) =
      .error ("Duplicate id found: " ++ pyStr (getKey v "id")) := by
  simp only [validate_input]
  rw [validate_items_append (dup :: rest) pre 0 [] recs hpre]
  have hdup0 : validate_item dup (0 + pre.length) = .ok v := by simpa using hdup
  simp only [validate_items, hdup0]
  rw [if_pos (by simpa [recId] using hmem)]
  rfl

/-- Witness for C3: the second element repeats id 1; the element after the
duplicate is not even an object, yet the reported error is the duplicate
message for id 1. -/
theorem duplicate_id_first_reported_witness :
    validate_input
        (.jarr [.jobj [("id", .jint 1), ("name", .jstr "A"), ("value", .jint 1)],
                .jobj [("id", .jint 1), ("name", .jstr "B"), ("value", .jint 2)],
                .jnull]) =
      .error ("Duplicate id found: " ++
        pyStr (getKey [("id", JValue.jint 1), ("name", JValue.jstr "B"),
          ("value", JValue.jint 2)] "id")) :=
  duplicate_id_first_reported
    [.jobj [("id", .jint 1), ("name", .jstr "A"), ("value", .jint 1)]]
    (.jobj [("id", .jint 1), ("name", .jstr "B"), ("value", .jint 2)])
    [.jnull]
    [[("id", JValue.jint 1), ("name", JValue.jstr "A"), ("value", JValue.jint 1)]]
    [("id", JValue.jint 1), ("name", JValue.jstr "B"), ("value", JValue.jint 2)]
    rfl rfl (by simp [recId, getKey, jintVal])

end TaskProcessor
